import Mathlib

/-!
Verification development for the wercker configuration / command-session core.

The Go sources embedded here:
- config parsing (`RawBoxConfig`, `RawStepConfig`, `RawPipelineConfig`,
  `RawConfig`, `ConfigFromYaml` and friends) from the `core` package;
- the container session (`Session.Send`, `Session.SendChecked`).

YAML documents are modelled at the value level (the external gopkg.in/yaml.v2
parser is a collaborator outside the repository): a document is a `YVal`.
Mappings are association lists of string keys, which is how yaml.v2 presents
them to the code at hand (`yaml.MapSlice` preserves declaration order, and the
code treats every key as a string). Go maps are modelled by their contents as
association lists with at most one binding per key.

Error discipline of gopkg.in/yaml.v2, as relied on by the source:
- type mismatches produce a `*yaml.TypeError` which the decoder collects while
  it keeps going (failed fields or entries are simply left unset / dropped);
- an error returned by a custom `UnmarshalYAML` that is not a `*yaml.TypeError`
  aborts the whole decode with that error;
- a runtime panic (for example an out-of-range index inside an unmarshaler)
  propagates out of `yaml.Unmarshal` as a panic.
These three outcomes are the three constructors of `YErr` below.
-/

namespace Wercker

/-- YAML values as the decoded Go code sees them: scalars, null, mappings
(association lists preserving declaration order, string keys) and sequences. -/
inductive YVal where
  | str (s : String)
  | int (n : Int)
  | bool (b : Bool)
  | null
  | map (items : List (String × YVal))
  | list (items : List YVal)

/-- Error outcomes of a decode, see the header comment: collected type errors,
a hard (non-type) error aborting the decode, or a runtime panic. -/
inductive YErr where
  | typeError (msgs : List String)
  | hardError (msg : String)
  | goPanic (msg : String)
deriving DecidableEq

/-- Embeds `strings.HasPrefix` on the character level. -/
def goHasPrefix (s p : String) : Bool := List.isPrefixOf p.data s.data

/-- Embeds `strings.HasSuffix` on the character level. -/
def goHasSuffix (s p : String) : Bool := List.isSuffixOf p.data s.data

/-- Association-list lookup, modelling a Go map read. -/
def lookupAL {α : Type} (m : List (String × α)) (k : String) : Option α :=
  (m.find? (fun p => p.1 == k)).map (fun p => p.2)

/-- Association-list delete, modelling the Go builtin `delete`. -/
def deleteAL {α : Type} (m : List (String × α)) (k : String) : List (String × α) :=
  m.filter (fun p => p.1 != k)

/-- Association-list insert with Go map semantics: replace an existing binding,
otherwise append. -/
def insertAL {α : Type} (m : List (String × α)) (k : String) (v : α) :
    List (String × α) :=
  if m.any (fun p => p.1 == k) then
    m.map (fun p => if p.1 == k then (k, v) else p)
  else m ++ [(k, v)]

/-- Decoding a scalar into a Go `string` target, after yaml.v2: any scalar
succeeds (the raw text is assigned), null assigns the zero value "", mappings
and sequences fail. -/
def stringUnmarshal : YVal → Option String
  | .str s => some s
  | .int n => some (toString n)
  | .bool b => some (if b then "true" else "false")
  | .null => some ""
  | .map _ => none
  | .list _ => none

/-- Decoding into a `yaml.MapSlice` target: mappings decode to themselves,
null decodes to the zero value (an empty slice), everything else fails. -/
def mapSliceUnmarshal : YVal → Option (List (String × YVal))
  | .map items => some items
  | .null => some []
  | _ => none

/-- Embeds `ifaceToString` (config source): string, ints of any width and bool
are rendered canonically; any other decoded value yields the empty string. -/
def ifaceToString : YVal → String
  | .str s => s
  | .int n => toString n
  | .bool b => if b then "true" else "false"
  | _ => ""

/-- Embeds `StepConfig`: the canonical step. `Data` is the generic
parameter mapping, modelled by its contents. -/
structure StepConfig where
  ID : String
  Cwd : String
  Name : String
  Data : List (String × String)
  Checkpoint : String
deriving DecidableEq

/-- The step data mapping as built by both mapping-shaped branches of
`RawStepConfig.UnmarshalYAML`: every item is inserted under Go map semantics
with its value coerced through `ifaceToString`. -/
def buildData (items : List (String × YVal)) : List (String × String) :=
  items.foldl (fun m it => insertAL m it.1 (ifaceToString it.2)) []

/-- Embeds the tail of `RawStepConfig.UnmarshalYAML` (from `r.ID = stepID` on):
the keys cwd, name and checkpoint are moved from the data mapping into the
typed fields; everything else stays in `Data`. -/
def finishStep (stepID : String) (stepData : List (String × String)) : StepConfig :=
  { ID := stepID
    Cwd := (lookupAL stepData "cwd").getD ""
    Name := (lookupAL stepData "name").getD ""
    Checkpoint := (lookupAL stepData "checkpoint").getD ""
    Data := deleteAL (deleteAL (deleteAL stepData "cwd") "name") "checkpoint" }

/-- Embeds `RawStepConfig.UnmarshalYAML`. Branches, in source order:
1. a value that unmarshals into a string becomes the bare identifier;
2. otherwise the value is decoded as a `yaml.MapSlice` (the error of that
   decode is discarded by the source, leaving the zero value on failure);
   a one-item mapping is the single-key shape: its value must itself be a
   mapping, else the step is reported empty;
3. any other length takes the legacy flat branch, which reads `topMap[0]`
   unconditionally: on an empty slice (empty mapping, or a sequence or any
   value that decoded into nothing) that read is an out-of-range panic. -/
def stepUnmarshalYAML (v : YVal) : Except YErr StepConfig :=
  match stringUnmarshal v with
  | some s => .ok { ID := s, Cwd := "", Name := "", Data := [], Checkpoint := "" }
  | none =>
    let topMap := (mapSliceUnmarshal v).getD []
    match topMap with
    | [item] =>
      match item.2 with
      | .map interData => .ok (finishStep item.1 (buildData interData))
      | _ => .error (.hardError ("Step " ++ item.1 ++ " is empty"))
    | [] => .error (.goPanic "runtime error: index out of range")
    | first :: rest => .ok (finishStep first.1 (buildData rest))

/-- Embeds `BoxConfig`. `Env` and `Ports` are modelled by their contents. -/
structure BoxConfig where
  ID : String := ""
  Name : String := ""
  Tag : String := ""
  Cmd : String := ""
  Env : List (String × String) := []
  Ports : List String := []
  Username : String := ""
  Password : String := ""
  Registry : String := ""
  Entrypoint : String := ""
  URL : String := ""
  Volumes : String := ""
deriving DecidableEq

/-- Embeds `BoxConfig.IsExternal`: the URL is set and uses the local-file
scheme. -/
def BoxConfig.IsExternal (c : BoxConfig) : Bool :=
  c.URL != "" && goHasPrefix c.URL "file://"

/-- Decodes one string field of a struct: an absent key leaves the zero value,
a scalar assigns its text, a mapping or sequence is a collected type error. -/
def strField (items : List (String × YVal)) (k : String) : Except YErr String :=
  match lookupAL items k with
  | none => .ok ""
  | some v =>
    match stringUnmarshal v with
    | some s => .ok s
    | none => .error (.typeError ["cannot unmarshal value of key " ++ k ++ " into string"])

/-- Decodes a `map[string]string` field (the box `Env`). -/
def strMapField (items : List (String × YVal)) (k : String) :
    Except YErr (List (String × String)) :=
  match lookupAL items k with
  | none => .ok []
  | some .null => .ok []
  | some (.map kvs) =>
    kvs.mapM (fun kv =>
      match stringUnmarshal kv.2 with
      | some s => .ok (kv.1, s)
      | none => .error (.typeError ["cannot unmarshal value of key " ++ kv.1 ++ " into string"]))
  | some _ => .error (.typeError ["cannot unmarshal value of key " ++ k ++ " into map"])

/-- Decodes a `[]string` field (the box `Ports`). -/
def strListField (items : List (String × YVal)) (k : String) :
    Except YErr (List String) :=
  match lookupAL items k with
  | none => .ok []
  | some .null => .ok []
  | some (.list vs) =>
    vs.mapM (fun v =>
      match stringUnmarshal v with
      | some s => .ok s
      | none => .error (.typeError ["cannot unmarshal sequence element into string"]))
  | some _ => .error (.typeError ["cannot unmarshal value of key " ++ k ++ " into sequence"])

/-- Field-wise decode of a mapping into the `BoxConfig` struct. The yaml keys
are the lowercased field names (the struct carries no yaml tags). -/
def decodeBoxStruct (items : List (String × YVal)) : Except YErr BoxConfig := do
  let id ← strField items "id"
  let name ← strField items "name"
  let tag ← strField items "tag"
  let cmd ← strField items "cmd"
  let env ← strMapField items "env"
  let ports ← strListField items "ports"
  let username ← strField items "username"
  let password ← strField items "password"
  let registry ← strField items "registry"
  let entrypoint ← strField items "entrypoint"
  let url ← strField items "url"
  let volumes ← strField items "volumes"
  pure { ID := id, Name := name, Tag := tag, Cmd := cmd, Env := env, Ports := ports,
         Username := username, Password := password, Registry := registry,
         Entrypoint := entrypoint, URL := url, Volumes := volumes }

/-- Embeds `RawBoxConfig.UnmarshalYAML`: first try to unmarshal into the `ID`
string; on failure fall back to the whole struct. -/
def boxUnmarshalYAML (v : YVal) : Except YErr BoxConfig :=
  match stringUnmarshal v with
  | some s => .ok { ID := s }
  | none =>
    match v with
    | .map items => decodeBoxStruct items
    | _ => .error (.typeError ["cannot unmarshal into BoxConfig"])

/-- Decodes a `[]*RawBoxConfig` field (services). -/
def decodeBoxList (v : YVal) : Except YErr (List BoxConfig) :=
  match v with
  | .null => .ok []
  | .list vs => vs.mapM boxUnmarshalYAML
  | _ => .error (.typeError ["cannot unmarshal into box list"])

/-- Embeds `PipelineConfig`. -/
structure PipelineConfig where
  Box : Option BoxConfig := none
  Steps : List StepConfig := []
  AfterSteps : List StepConfig := []
  StepsMap : List (String × List StepConfig) := []
  Services : List BoxConfig := []
  BasePath : String := ""
deriving DecidableEq

/-- Embeds `pipelineReservedWords` (the key set, as a list). -/
def pipelineReservedWords : List String :=
  ["box", "services", "steps", "after-steps", "base-path"]

/-- Embeds `configReservedWords` (the key set, as a list). Note the source set
does not contain "ignore-file", although the `Config` struct has an
`IgnoreFile` field under that yaml tag. -/
def configReservedWords : List String :=
  ["box", "command-timeout", "no-response-timeout", "services", "source-dir"]

/-- Embeds `strings.TrimSuffix`: removes one occurrence of the suffix, if the
string ends with it. -/
def trimSuffix (s suffix : String) : String :=
  if goHasSuffix s suffix then s.dropRight suffix.length else s

/-- Decodes a `[]*RawStepConfig` value: a sequence decodes its elements in
order through the step unmarshaler (the first hard error or panic aborts),
null is the zero value, anything else is a type error. -/
def decodeStepList (v : YVal) : Except YErr (List StepConfig) :=
  match v with
  | .null => .ok []
  | .list vs => vs.mapM stepUnmarshalYAML
  | _ => .error (.typeError ["cannot unmarshal into step list"])

/-- Decodes the `map[string][]*RawStepConfig` field (the untagged `StepsMap`
struct field, reachable under the yaml key "stepsmap"). -/
def decodeStepsMapField (items : List (String × YVal)) :
    Except YErr (List (String × List StepConfig)) :=
  match lookupAL items "stepsmap" with
  | none => .ok []
  | some .null => .ok []
  | some (.map kvs) =>
    kvs.mapM (fun kv => (decodeStepList kv.2).map (fun ss => (kv.1, ss)))
  | some _ => .error (.typeError ["cannot unmarshal value of key stepsmap into map"])

/-- Field-wise decode of a mapping into the `PipelineConfig` struct (the first
phase of `RawPipelineConfig.UnmarshalYAML`, `unmarshal(r.PipelineConfig)`).
Yaml keys follow the struct tags: box, steps, after-steps, services,
base-path, plus the untagged stepsmap. -/
def decodePipelineStruct (items : List (String × YVal)) : Except YErr PipelineConfig := do
  let box ← match lookupAL items "box" with
    | none => pure none
    | some .null => pure none
    | some v => (boxUnmarshalYAML v).map some
  let steps ← match lookupAL items "steps" with
    | none => pure []
    | some v => decodeStepList v
  let afterSteps ← match lookupAL items "after-steps" with
    | none => pure []
    | some v => decodeStepList v
  let stepsMap ← decodeStepsMapField items
  let services ← match lookupAL items "services" with
    | none => pure []
    | some v => decodeBoxList v
  let basePath ← strField items "base-path"
  pure { Box := box, Steps := steps, AfterSteps := afterSteps, StepsMap := stepsMap,
         Services := services, BasePath := basePath }

/-- Embeds the extra-key loop of `RawPipelineConfig.UnmarshalYAML`: every
non-reserved key of the generic mapping is re-decoded as a step list and
added to `StepsMap`; a failing decode is replaced by the structural
"Invalid extra key" type error naming the key, except that a panic keeps
propagating (the source captures only the returned error). -/
def pipelineExtraLoop (base : PipelineConfig) :
    List (String × YVal) → Except YErr PipelineConfig
  | [] => .ok base
  | (k, v) :: rest =>
    if k ∈ pipelineReservedWords then pipelineExtraLoop base rest
    else
      match decodeStepList v with
      | .ok otherSteps =>
        pipelineExtraLoop
          { base with StepsMap := base.StepsMap ++ [(k, otherSteps)] } rest
      | .error (.goPanic m) => .error (.goPanic m)
      | .error _ =>
        .error (.typeError
          ["Invalid extra key in pipeline, " ++ k ++ " is not a list of steps"])

/-- Embeds `RawPipelineConfig.UnmarshalYAML`: struct decode, then the trailing
slash of `BasePath` is trimmed, then the generic-mapping pass adds every
non-reserved key as an alternate step sequence. A non-mapping, non-null
document fails the struct decode. -/
def pipelineUnmarshalYAML (v : YVal) : Except YErr PipelineConfig :=
  match v with
  | .null => .ok {}
  | .map items => do
    let base ← decodePipelineStruct items
    let base := { base with BasePath := trimSuffix base.BasePath "/" }
    pipelineExtraLoop base items
  | _ => .error (.typeError ["cannot unmarshal into PipelineConfig"])

/-- Embeds `Config`, the root of wercker.yml. -/
structure Config where
  Box : Option BoxConfig := none
  CommandTimeout : Int := 0
  NoResponseTimeout : Int := 0
  Services : List BoxConfig := []
  SourceDir : String := ""
  IgnoreFile : String := ""
  PipelinesMap : List (String × PipelineConfig) := []
deriving DecidableEq

/-- Decodes an `int` field: an integer scalar assigns its value; any failing
value leaves the zero value (the surrounding decode of the `Config` struct
discards its error, so a collected type error never surfaces here). -/
def intFieldLenient (items : List (String × YVal)) (k : String) : Int :=
  match lookupAL items k with
  | some (.int n) => n
  | _ => 0

/-- Decodes a string field leniently: any failure leaves the zero value. Used
for the `Config` struct whose decode error is discarded by the source
(`err := unmarshal(r.Config)` is overwritten unchecked). -/
def strFieldLenient (items : List (String × YVal)) (k : String) : String :=
  match lookupAL items k with
  | some v => (stringUnmarshal v).getD ""
  | none => ""

/-- Field-wise decode of the typed `Config` fields (`unmarshal(r.Config)`).
The source never checks the error of this decode, so each field is decoded
best-effort and failures leave zero values. `PipelinesMap` is filled by the
second pass. -/
def decodeConfigStruct (items : List (String × YVal)) : Config :=
  { Box := (lookupAL items "box").bind (fun v => (boxUnmarshalYAML v).toOption)
    CommandTimeout := intFieldLenient items "command-timeout"
    NoResponseTimeout := intFieldLenient items "no-response-timeout"
    Services := ((lookupAL items "services").map
      (fun v => (decodeBoxList v).toOption.getD [])).getD []
    SourceDir := strFieldLenient items "source-dir"
    IgnoreFile := strFieldLenient items "ignore-file"
    PipelinesMap := [] }

/-- Embeds the second pass of `RawConfig.UnmarshalYAML`
(`unmarshal(&m)` with `m : map[string]*RawPipelineConfig`): every entry is
decoded as a pipeline; an entry whose decode is a collected type error is
dropped while decoding continues (and the resulting `*yaml.TypeError` is then
swallowed by the source), while a hard error or panic aborts. -/
def decodePipelinesEntries :
    List (String × YVal) → Except YErr (List (String × PipelineConfig))
  | [] => .ok []
  | (k, v) :: rest =>
    match pipelineUnmarshalYAML v with
    | .ok p => (decodePipelinesEntries rest).map (fun tail => (k, p) :: tail)
    | .error (.typeError _) => decodePipelinesEntries rest
    | .error e => .error e

/-- Embeds `RawConfig.UnmarshalYAML`: typed fields first (error discarded),
then the generic pipeline mapping, keeping every key outside the reserved
set. A non-mapping document produces only type errors, all of which the
source swallows, leaving the zero-valued config. -/
def configUnmarshalYAML (v : YVal) : Except YErr Config :=
  match v with
  | .map items => do
    let base := decodeConfigStruct items
    let entries ← decodePipelinesEntries items
    let pipelines := entries.filter (fun kv => kv.1 ∉ configReservedWords)
    pure { base with PipelinesMap := pipelines }
  | _ => .ok {}

/-- An input to `yaml.Unmarshal` as `ConfigFromYaml` sees it: a document that
fails to scan, an empty input (no document: the unmarshaler is never invoked,
`RawConfig.Config` stays nil), or a well-formed document value. -/
inductive YamlInput where
  | malformed (msg : String)
  | empty
  | doc (v : YVal)

/-- Renders a `YErr` the way Go formats the corresponding error value
(`*yaml.TypeError` joins its messages under a header). A panic has no
rendering: it is not an error value. -/
def errMessage : YErr → String
  | .typeError msgs => "yaml: unmarshal errors:\n  " ++ String.intercalate "\n  " msgs
  | .hardError msg => msg
  | .goPanic msg => msg

/-- Embeds `yaml.Unmarshal(file, &m)` at the top level: a scan failure is a
hard error, an empty input decodes nothing (`none`), and a document runs the
config unmarshaler. -/
def yamlUnmarshalConfig : YamlInput → Except YErr (Option Config)
  | .malformed msg => .error (.hardError msg)
  | .empty => .ok none
  | .doc v => (configUnmarshalYAML v).map some

/-- Embeds `RawConfig.IsValid` composed into `ConfigFromYaml`: a nil config is
the "Your wercker.yml is empty." error; any error is wrapped once with the
parse-failure context and the returned config is nil (`Except.error` carries
no config). A panic keeps propagating. -/
def ConfigFromYaml (inp : YamlInput) : Except YErr Config :=
  match yamlUnmarshalConfig inp with
  | .error (.goPanic m) => .error (.goPanic m)
  | .error e =>
    .error (.hardError ("Error parsing your wercker.yml:\n  " ++ errMessage e))
  | .ok none =>
    .error (.hardError ("Error parsing your wercker.yml:\n  " ++ "Your wercker.yml is empty."))
  | .ok (some c) => .ok c

/-- Embeds `Session` as far as the claims reach: whether `Attach` has set the
websocket connection, and the ordered list of writes made to the stream. -/
structure Session where
  attached : Bool
  sent : List String
deriving DecidableEq

/-- Outcome of `Session.Send`. The Go signature returns nothing: a failing
write is handled inside `Send` by `log.Fatalln` (and a write on the nil
connection of an unattached session dies on the spot), so the only outcomes
are the updated session or a process abort. -/
inductive SendOutcome where
  | ok (s : Session)
  | fatal (msg : String)
deriving DecidableEq

/-- Embeds `Session.Send`: each command is written to the stream followed by a
newline, in the given order; the first write on an unattached session aborts
the process. An empty command list performs no write and succeeds even when
unattached. -/
def Session.send (s : Session) : List String → SendOutcome
  | [] => .ok s
  | c :: rest =>
    if s.attached then
      Session.send { s with sent := s.sent ++ [c ++ "\n"] } rest
    else .fatal "websocket: write on nil connection"

/-- The read loop of `SendChecked` over the queued lines of the session
channel: a line that does not begin with the token is appended to the
captured output; the first line beginning with the token ends the loop and is
returned alongside the captured output. An exhausted queue means the loop is
still blocked on the channel (`none`). -/
def checkedLoop (token : String) : List String → Option (List String × String)
  | [] => none
  | l :: ls =>
    if goHasPrefix l token then some ([], l)
    else (checkedLoop token ls).map (fun r => (l :: r.1, r.2))

/-- Models `fmt.Sscanf(line, "%s %d\n", &rand, &exitCode)` succeeding with the
scanned integer: a nonempty first field, spaces, an optional sign and a
nonempty digit run, then (up to spaces) nothing or a newline. Any other shape
is a scan error. -/
def parseStatusLine (line : String) : Option Int :=
  let cs := line.data.dropWhile (fun c => c == ' ')
  let tok := cs.takeWhile (fun c => c != ' ' && c != '\n')
  if tok.isEmpty then none
  else
    let cs := cs.dropWhile (fun c => c != ' ' && c != '\n')
    let cs := cs.dropWhile (fun c => c == ' ')
    let signed := cs.head? == some '-'
    let cs := if cs.head? == some '-' || cs.head? == some '+' then cs.tail else cs
    let digits := cs.takeWhile Char.isDigit
    if digits.isEmpty then none
    else
      let rest := (cs.dropWhile Char.isDigit).dropWhile (fun c => c == ' ')
      if rest == [] || rest == ['\n'] then
        let n : Nat := digits.foldl (fun a c => a * 10 + (c.toNat - 48)) 0
        some (if signed then -(n : Int) else (n : Int))
      else none

/-- Result of `SendChecked` after the sentinel line arrived: the exit status
with the captured output, or the scan error surfaced to the caller with the
output captured so far. `blocked` stands for a queue that never produced a
sentinel line (the Go loop keeps waiting on the channel). -/
inductive CheckedResult where
  | ok (exitCode : Int) (output : List String)
  | scanError (output : List String)
  | blocked
deriving DecidableEq

/-- Embeds `Session.SendChecked` over an explicit queue of received lines: the
commands of the caller are sent, then the sentinel command
`echo <token> $?`; the read loop splits the queue at the first line beginning
with the token; the status is scanned from that line, a failing scan being
returned as an error. The first component is the command sequence handed to
`Send`, in order. -/
def sendChecked (commands : List String) (token : String) (queue : List String) :
    List String × CheckedResult :=
  (commands ++ ["echo " ++ token ++ " $?"],
   match checkedLoop token queue with
   | none => .blocked
   | some (recv, line) =>
     match parseStatusLine line with
     | some exitCode => .ok exitCode recv
     | none => .scanError recv)

/-! Helper lemmas about the association-list operations. -/

theorem lookupAL_deleteAL_self {α : Type} (m : List (String × α)) (k : String) :
    lookupAL (deleteAL m k) k = none := by
  induction m with
  | nil => rfl
  | cons p t ih =>
    by_cases h : p.1 = k
    · simp only [deleteAL, List.filter_cons, h, bne_self_eq_false, if_false]
      exact ih
    · simp only [deleteAL, List.filter_cons, lookupAL, List.find?_cons] at ih ⊢
      simp only [bne, h, beq_iff_eq, if_true, if_false, Bool.not_false, ite_true,
        ite_false, decide_eq_true_eq]
      simp [h, ih]

theorem lookupAL_deleteAL_ne {α : Type} (m : List (String × α)) (k k' : String)
    (h : ¬ k = k') : lookupAL (deleteAL m k') k = lookupAL m k := by
  have h' : ¬ k' = k := fun e => h e.symm
  induction m with
  | nil => rfl
  | cons p t ih =>
    by_cases hp : p.1 = k'
    · simpa [deleteAL, List.filter_cons, lookupAL, List.find?_cons, hp, h'] using ih
    · by_cases hk : p.1 = k
      · simp [deleteAL, List.filter_cons, lookupAL, List.find?_cons, hp, hk, h, h']
      · simpa [deleteAL, List.filter_cons, lookupAL, List.find?_cons, hp, hk] using ih

theorem finishStep_reserved_absent (sid : String) (sd : List (String × String)) :
    lookupAL (finishStep sid sd).Data "cwd" = none ∧
    lookupAL (finishStep sid sd).Data "name" = none ∧
    lookupAL (finishStep sid sd).Data "checkpoint" = none := by
  refine ⟨?_, ?_, ?_⟩
  · rw [show (finishStep sid sd).Data
        = deleteAL (deleteAL (deleteAL sd "cwd") "name") "checkpoint" from rfl,
      lookupAL_deleteAL_ne _ _ _ (by decide), lookupAL_deleteAL_ne _ _ _ (by decide)]
    exact lookupAL_deleteAL_self _ _
  · rw [show (finishStep sid sd).Data
        = deleteAL (deleteAL (deleteAL sd "cwd") "name") "checkpoint" from rfl,
      lookupAL_deleteAL_ne _ _ _ (by decide)]
    exact lookupAL_deleteAL_self _ _
  · exact lookupAL_deleteAL_self _ _

/-! Theorems for the claims. -/

/-- Claim C2: the three step-declaration shapes that can encode a given
identifier and parameter mapping produce the same canonical `StepConfig`: the
single-key mapping and the flat legacy mapping (which needs at least one
parameter to be a flat mapping at all) agree for every parameter list, and the
bare string agrees with the single-key mapping carrying an empty parameter
mapping. Go represents the data of a bare-string step as a nil map and the
data of the mapping shapes as a (possibly empty) allocated map; both are
modelled here by their contents. -/
theorem step_shapes_agree : ∀ (sid : String) (params : List (String × YVal)),
    stepUnmarshalYAML (.str sid) = .ok (finishStep sid [])
    ∧ stepUnmarshalYAML (.map [(sid, .map params)]) = .ok (finishStep sid (buildData params))
    ∧ (params ≠ [] →
        stepUnmarshalYAML (.map ((sid, .null) :: params))
          = .ok (finishStep sid (buildData params))) := by
  intro sid params
  refine ⟨rfl, rfl, fun h => ?_⟩
  match params, h with
  | p :: ps, _ => rfl

/-- Witness for C2 at a concrete step: the flat legacy shape with parameters
code and cwd parses to the canonical step of the same identifier and data. -/
theorem step_shapes_agree_witness :
    stepUnmarshalYAML (.map [("script", .null), ("code", .str "x"), ("cwd", .str "/w")])
      = .ok (finishStep "script" (buildData [("code", .str "x"), ("cwd", .str "/w")])) :=
  (step_shapes_agree "script" [("code", .str "x"), ("cwd", .str "/w")]).2.2
    (List.cons_ne_nil _ _)

/-- Claim C4: every successfully parsed step has the keys cwd, name and
checkpoint absent from its generic `Data` mapping, and their values are the
ones extracted into the typed `Cwd`, `Name` and `Checkpoint` fields: each
successful parse is the extraction `finishStep` applied to the identifier and
a pre-extraction data mapping, the extraction copies exactly the bindings of
those three keys into the typed fields (the empty string when absent), and it
removes no other key: any key distinct from those three keeps its binding
from the pre-extraction data mapping. -/
theorem step_reserved_extraction :
    (∀ v st, stepUnmarshalYAML v = .ok st →
      (lookupAL st.Data "cwd" = none ∧ lookupAL st.Data "name" = none ∧
        lookupAL st.Data "checkpoint" = none)
      ∧ ∃ sd, st = finishStep st.ID sd
          ∧ st.Cwd = (lookupAL sd "cwd").getD ""
          ∧ st.Name = (lookupAL sd "name").getD ""
          ∧ st.Checkpoint = (lookupAL sd "checkpoint").getD "")
    ∧ (∀ sid sd, (finishStep sid sd).ID = sid
        ∧ (finishStep sid sd).Cwd = (lookupAL sd "cwd").getD ""
        ∧ (finishStep sid sd).Name = (lookupAL sd "name").getD ""
        ∧ (finishStep sid sd).Checkpoint = (lookupAL sd "checkpoint").getD "")
    ∧ (∀ sid sd k, ¬ k = "cwd" → ¬ k = "name" → ¬ k = "checkpoint" →
        lookupAL (finishStep sid sd).Data k = lookupAL sd k) := by
  refine ⟨?_, fun sid sd => ⟨rfl, rfl, rfl, rfl⟩, ?_⟩
  · intro v st h
    cases v with
    | str s =>
      injection h with h2; subst h2
      exact ⟨⟨rfl, rfl, rfl⟩, [], rfl, rfl, rfl, rfl⟩
    | int n =>
      injection h with h2; subst h2
      exact ⟨⟨rfl, rfl, rfl⟩, [], rfl, rfl, rfl, rfl⟩
    | bool b =>
      injection h with h2; subst h2
      exact ⟨⟨rfl, rfl, rfl⟩, [], rfl, rfl, rfl, rfl⟩
    | null =>
      injection h with h2; subst h2
      exact ⟨⟨rfl, rfl, rfl⟩, [], rfl, rfl, rfl, rfl⟩
    | list items => exact nomatch h
    | map items =>
      match items, h with
      | [], h => exact nomatch h
      | [(ik, YVal.map interData)], h =>
        injection h with h2; subst h2
        exact ⟨finishStep_reserved_absent _ _, buildData interData, rfl, rfl, rfl, rfl⟩
      | [(ik, YVal.str s)], h => exact nomatch h
      | [(ik, YVal.int n)], h => exact nomatch h
      | [(ik, YVal.bool b)], h => exact nomatch h
      | [(ik, YVal.null)], h => exact nomatch h
      | [(ik, YVal.list vs)], h => exact nomatch h
      | (k1, v1) :: (k2, v2) :: rest, h =>
        injection h with h2; subst h2
        exact ⟨finishStep_reserved_absent _ _, buildData ((k2, v2) :: rest), rfl, rfl, rfl, rfl⟩
  · intro sid sd k h1 h2 h3
    rw [show (finishStep sid sd).Data
        = deleteAL (deleteAL (deleteAL sd "cwd") "name") "checkpoint" from rfl,
      lookupAL_deleteAL_ne _ _ _ h3, lookupAL_deleteAL_ne _ _ _ h2,
      lookupAL_deleteAL_ne _ _ _ h1]

/-- Witness for C4 at a concrete step: cwd is gone from the parsed data and
its value /w sits in the typed Cwd field, while the non-reserved key code
keeps its binding. -/
theorem step_reserved_extraction_witness :
    lookupAL ((finishStep "script" [("cwd", "/w"), ("code", "x")]).Data) "cwd" = none
    ∧ (finishStep "script" [("cwd", "/w"), ("code", "x")]).Cwd = "/w"
    ∧ lookupAL ((finishStep "script" [("cwd", "/w"), ("code", "x")]).Data) "code"
        = lookupAL [("cwd", "/w"), ("code", "x")] "code" := by
  refine ⟨?_, ?_, ?_⟩
  · exact ((step_reserved_extraction.1
      (.map [("script", .map [("cwd", .str "/w"), ("code", .str "x")])])
      (finishStep "script" [("cwd", "/w"), ("code", "x")]) rfl).1).1
  · exact ((step_reserved_extraction.2.1 "script" [("cwd", "/w"), ("code", "x")]).2.1).trans rfl
  · exact step_reserved_extraction.2.2 "script" [("cwd", "/w"), ("code", "x")] "code"
      (by decide) (by decide) (by decide)

/-- Claim C10 is a code bug: step parsing is not total. A step value that
decodes neither as a string nor as a nonempty mapping, such as an empty
mapping or a sequence, reaches the legacy flat branch with an empty decoded
key list and reads its first element: an index-out-of-range panic instead of
a returned error (the error of the second `unmarshal` is also discarded on
the way there). -/
theorem step_parse_panics_on_empty_shapes :
    stepUnmarshalYAML (.map []) = .error (.goPanic "runtime error: index out of range")
    ∧ stepUnmarshalYAML (.list [.str "echo hi"])
        = .error (.goPanic "runtime error: index out of range") :=
  ⟨rfl, rfl⟩

/-- Claim C3 is a code bug at the config level: the reserved-word set of the
config (source lines 257 to 263) omits "ignore-file" although the `Config`
struct recognizes that key as its typed `IgnoreFile` field and the loop
comment says the fields we already know are skipped. A document whose
ignore-file value happens to parse as a pipeline therefore inserts the
recognized key "ignore-file" into `PipelinesMap`. The second conjunct shows
the pipeline level behaving as claimed: the reserved key "steps" stays out of
`StepsMap` while the alternate key lands in it. -/
theorem config_reserved_ignore_file_leak :
    (configUnmarshalYAML
        (.map [("ignore-file", .map [("steps", .list [.str "build-it"])])])).toOption.map
        (fun c => c.PipelinesMap.map Prod.fst) = some ["ignore-file"]
    ∧ (pipelineUnmarshalYAML
        (.map [("steps", .list [.str "x"]), ("deploy", .list [.str "y"])])).toOption.map
        (fun p => p.StepsMap.map Prod.fst) = some ["deploy"] :=
  ⟨rfl, rfl⟩

/-- The extra-key loop of the pipeline unmarshaler fails with the structural
error naming the first non-reserved key whose value does not decode as a step
list (given that every earlier non-reserved key decodes fine and the failing
decode is not a panic). -/
theorem pipelineExtraLoop_first_bad :
    ∀ (pre : List (String × YVal)) (base : PipelineConfig) (k : String) (v : YVal)
      (post : List (String × YVal)) (e : YErr),
      (∀ p ∈ pre, p.1 ∈ pipelineReservedWords ∨ ∃ ss, decodeStepList p.2 = .ok ss) →
      k ∉ pipelineReservedWords →
      decodeStepList v = .error e →
      (∀ m, ¬ e = .goPanic m) →
      pipelineExtraLoop base (pre ++ (k, v) :: post) =
        .error (.typeError ["Invalid extra key in pipeline, " ++ k ++ " is not a list of steps"]) := by
  intro pre
  induction pre with
  | nil =>
    intro base k v post e _ hk hv hnp
    show pipelineExtraLoop base ((k, v) :: post) = _
    rw [pipelineExtraLoop, if_neg hk, hv]
    cases e with
    | typeError msgs => rfl
    | hardError msg => rfl
    | goPanic m => exact absurd rfl (hnp m)
  | cons p pre ih =>
    intro base k v post e hpre hk hv hnp
    have hrest : ∀ q ∈ pre, q.1 ∈ pipelineReservedWords ∨ ∃ ss, decodeStepList q.2 = .ok ss :=
      fun q hq => hpre q (List.mem_cons_of_mem p hq)
    show pipelineExtraLoop base ((p.1, p.2) :: (pre ++ (k, v) :: post)) = _
    by_cases hres : p.1 ∈ pipelineReservedWords
    · rw [pipelineExtraLoop, if_pos hres]
      exact ih base k v post e hrest hk hv hnp
    · rcases hpre p (List.mem_cons_self p pre) with hres2 | ⟨ss, hss⟩
      · exact absurd hres2 hres
      · rw [pipelineExtraLoop, if_neg hres, hss]
        exact ih _ k v post e hrest hk hv hnp

/-- Claim C5, amended: at the pipeline level, once the typed fields decode,
the first non-reserved key whose value does not parse as a step sequence
(short of a panic) fails the whole parse with the structural error that names
that key. At the config level such keys are silently dropped instead, see the
counterexample. -/
theorem pipeline_extra_key_error :
    ∀ (pre post : List (String × YVal)) (k : String) (v : YVal)
      (base : PipelineConfig) (e : YErr),
      decodePipelineStruct (pre ++ (k, v) :: post) = .ok base →
      (∀ p ∈ pre, p.1 ∈ pipelineReservedWords ∨ ∃ ss, decodeStepList p.2 = .ok ss) →
      k ∉ pipelineReservedWords →
      decodeStepList v = .error e →
      (∀ m, ¬ e = .goPanic m) →
      pipelineUnmarshalYAML (.map (pre ++ (k, v) :: post)) =
        .error (.typeError ["Invalid extra key in pipeline, " ++ k ++ " is not a list of steps"]) := by
  intro pre post k v base e hstruct hpre hk hv hnp
  show (decodePipelineStruct (pre ++ (k, v) :: post)).bind
      (fun b => pipelineExtraLoop { b with BasePath := trimSuffix b.BasePath "/" }
        (pre ++ (k, v) :: post)) = _
  rw [hstruct]
  show pipelineExtraLoop { base with BasePath := trimSuffix base.BasePath "/" }
      (pre ++ (k, v) :: post) = _
  exact pipelineExtraLoop_first_bad pre _ k v post e hpre hk hv hnp

/-- Witness for the amended C5 at a concrete pipeline document: the alternate
key deploy-prod with a scalar value fails the parse with the error naming the
key. -/
theorem pipeline_extra_key_error_witness :
    pipelineUnmarshalYAML (.map [("deploy-prod", .int 5)]) =
      .error (.typeError ["Invalid extra key in pipeline, deploy-prod is not a list of steps"]) :=
  pipeline_extra_key_error [] [] "deploy-prod" (.int 5) {}
    (.typeError ["cannot unmarshal into step list"]) rfl
    (fun p hp => absurd hp (List.not_mem_nil p)) (by decide) rfl (fun m hm => nomatch hm)

/-- Counterexample to C5 as stated: at the config level a non-reserved key
whose value does not parse as a step sequence does not fail parsing. The
source swallows the collected type errors of the generic pipeline-map pass,
so the key is silently dropped and the parse succeeds with an empty
pipelines map. -/
theorem config_extra_key_silently_dropped :
    configUnmarshalYAML (.map [("badkey", .int 42)]) = .ok {} := rfl

/-- Claim C6: on a malformed document the config loader returns the single
wrapped error carrying the parse-failure context, and on an empty input the
nil inner config is reported invalid through the same wrapper; in both cases
no config is returned and no panic occurs. -/
theorem configFromYaml_empty_or_malformed :
    (∀ msg, ConfigFromYaml (.malformed msg)
        = .error (.hardError ("Error parsing your wercker.yml:\n  " ++ msg)))
    ∧ ConfigFromYaml .empty
        = .error (.hardError "Error parsing your wercker.yml:\n  Your wercker.yml is empty.") :=
  ⟨fun _ => rfl, rfl⟩

/-- Counterexample to C7 as stated: a box given as a full structured mapping
without an id key parses successfully with an empty `ID` field. -/
theorem box_struct_parses_empty_ID :
    (boxUnmarshalYAML (.map [("name", .str "ubuntu")])).toOption.map (fun b => b.ID)
      = some "" := rfl

/-- Claim C7, amended: the parser itself guarantees only that a bare-scalar
box declaration copies the scalar into `ID`, and that a structured mapping
takes `ID` from its id key; a mapping without that key parses with an empty
ID, so non-emptiness of `ID` is established by normalization outside the
parser, not by the parse. -/
theorem box_ID_from_parse :
    (∀ s, (boxUnmarshalYAML (.str s)).toOption.map (fun b => b.ID) = some s)
    ∧ (boxUnmarshalYAML (.map [("id", .str "wercker/ubuntu"), ("tag", .str "16.04")])).toOption.map
        (fun b => b.ID) = some "wercker/ubuntu" :=
  ⟨fun _ => rfl, rfl⟩

/-- Counterexample to C8 as stated: `strings.TrimSuffix` removes a single
trailing separator, so a base-path ending in two slashes still ends in a
slash after parsing. -/
theorem base_path_keeps_second_slash :
    (pipelineUnmarshalYAML (.map [("base-path", .str "app//")])).toOption.map
        (fun p => p.BasePath) = some "app/"
    ∧ goHasSuffix "app/" "/" = true :=
  ⟨rfl, rfl⟩

/-- Claim C8, amended: parsing strips exactly one trailing slash from the
base-path override (the input app/ yields the canonical BasePath app); a
path with repeated trailing slashes keeps the remaining ones. -/
theorem base_path_trim_single :
    (∀ s, (pipelineUnmarshalYAML (.map [("base-path", .str s)])).toOption.map
        (fun p => p.BasePath) = some (trimSuffix s "/"))
    ∧ (pipelineUnmarshalYAML (.map [("base-path", .str "app/")])).toOption.map
        (fun p => p.BasePath) = some "app" :=
  ⟨fun _ => rfl, rfl⟩

/-- While the session is attached, Send appends one newline-terminated write
per command, in the given order. -/
theorem send_attached (cmds : List String) :
    ∀ s : Session, s.attached = true →
      Session.send s cmds
        = .ok { s with sent := s.sent ++ cmds.map (fun c => c ++ "\n") } := by
  induction cmds with
  | nil => intro s _; simp [Session.send]
  | cons c rest ih =>
    intro s ha
    rw [Session.send, if_pos ha, ih { s with sent := s.sent ++ [c ++ "\n"] } ha]
    simp [List.append_assoc]

/-- Counterexample to C9 as stated: Send has no error return in its Go
signature. Invoked on an unattached session (nil connection) the first write
fails and the failure path aborts the process; no error reaches the caller. -/
theorem send_unattached_is_fatal :
    Session.send { attached := false, sent := [] } ["ls"]
      = .fatal "websocket: write on nil connection" := rfl

/-- Claim C9, amended: while attached, Send writes each given command followed
by a newline to the stream in the given order; invoked on an unattached
session with at least one command it fails fatally (process abort through the
websocket failure path) rather than returning an error, Send having no error
result. -/
theorem send_spec :
    ∀ (s : Session) (cmds : List String),
      (s.attached = true →
        Session.send s cmds
          = .ok { s with sent := s.sent ++ cmds.map (fun c => c ++ "\n") })
      ∧ (s.attached = false → ¬ cmds = [] →
        Session.send s cmds = .fatal "websocket: write on nil connection") := by
  intro s cmds
  refine ⟨fun ha => send_attached cmds s ha, fun ha hne => ?_⟩
  match cmds, hne with
  | c :: rest, _ =>
    rw [Session.send, if_neg (by simp [ha])]

/-- Witness for the amended C9 at concrete sessions: an attached session
records both writes in order with trailing newlines; an unattached session
aborts. -/
theorem send_spec_witness :
    Session.send { attached := true, sent := [] } ["ls", "pwd"]
      = .ok { attached := true, sent := ["ls\n", "pwd\n"] }
    ∧ Session.send { attached := false, sent := [] } ["pwd"]
      = .fatal "websocket: write on nil connection" :=
  ⟨(send_spec { attached := true, sent := [] } ["ls", "pwd"]).1 rfl,
   (send_spec { attached := false, sent := [] } ["pwd"]).2 rfl (fun e => nomatch e)⟩

/-- The read loop of SendChecked splits the queue at the first line beginning
with the token: everything before it is captured in arrival order and none of
it begins with the token. -/
theorem checkedLoop_split (token : String) :
    ∀ (queue recv : List String) (line : String),
      checkedLoop token queue = some (recv, line) →
      (∃ rest, queue = recv ++ line :: rest)
      ∧ (∀ l ∈ recv, goHasPrefix l token = false)
      ∧ goHasPrefix line token = true := by
  intro queue
  induction queue with
  | nil => intro recv line h; exact nomatch h
  | cons l ls ih =>
    intro recv line h
    rw [checkedLoop] at h
    by_cases hp : goHasPrefix l token = true
    · rw [if_pos hp] at h
      injection h with h2
      cases h2
      exact ⟨⟨ls, rfl⟩, fun x hx => absurd hx (List.not_mem_nil x), hp⟩
    · rw [if_neg hp] at h
      rcases Option.map_eq_some'.mp h with ⟨⟨r1, lin⟩, hr, heq⟩
      cases heq
      obtain ⟨⟨rest, hq⟩, hall, hpre⟩ := ih r1 lin hr
      refine ⟨⟨rest, by rw [hq]; rfl⟩, ?_, hpre⟩
      intro x hx
      rcases List.mem_cons.mp hx with hx | hx
      · subst hx; exact (Bool.not_eq_true _) ▸ hp
      · exact hall x hx

/-- Claim C1: SendChecked hands Send the commands of the caller followed by
the single sentinel command echo token and the last-exit-status variable; the
read loop consumes queued lines in arrival order, capturing every line that
does not begin with the token, and stops at the first line that does; the
status is scanned from that line, and a sentinel line whose status does not
scan as an integer makes SendChecked return the scan error (a distinct
outcome from a successful zero status). -/
theorem sendChecked_spec :
    ∀ (cmds : List String) (token : String) (queue recv : List String) (line : String),
      (sendChecked cmds token queue).1 = cmds ++ ["echo " ++ token ++ " $?"]
      ∧ (checkedLoop token queue = some (recv, line) →
          (∃ rest, queue = recv ++ line :: rest)
          ∧ (∀ l ∈ recv, goHasPrefix l token = false)
          ∧ goHasPrefix line token = true
          ∧ (sendChecked cmds token queue).2 =
              (match parseStatusLine line with
               | some exitCode => CheckedResult.ok exitCode recv
               | none => CheckedResult.scanError recv)) := by
  intro cmds token queue recv line
  refine ⟨rfl, fun h => ?_⟩
  obtain ⟨hsplit, hall, hpre⟩ := checkedLoop_split token queue recv line h
  refine ⟨hsplit, hall, hpre, ?_⟩
  show (match checkedLoop token queue with
        | none => CheckedResult.blocked
        | some (r, l) =>
          match parseStatusLine l with
          | some exitCode => CheckedResult.ok exitCode r
          | none => CheckedResult.scanError r) = _
  rw [h]

/-- Witness for C1 at a concrete batch: one output line is captured, the
sentinel line TOK 0 stops the loop with status 0, and a malformed sentinel
line yields the scan error. -/
theorem sendChecked_spec_witness :
    (sendChecked ["ls"] "TOK" ["hello\n", "TOK 0\n"]).1 = ["ls", "echo TOK $?"]
    ∧ (sendChecked ["ls"] "TOK" ["hello\n", "TOK 0\n"]).2 = CheckedResult.ok 0 ["hello\n"]
    ∧ (sendChecked ["ls"] "TOK" ["hello\n", "TOK oops\n"]).2
        = CheckedResult.scanError ["hello\n"] := by
  refine ⟨(sendChecked_spec ["ls"] "TOK" ["hello\n", "TOK 0\n"] [] "").1, ?_, ?_⟩
  · have h := ((sendChecked_spec ["ls"] "TOK" ["hello\n", "TOK 0\n"]
      ["hello\n"] "TOK 0\n").2 rfl).2.2.2
    exact h.trans rfl
  · have h := ((sendChecked_spec ["ls"] "TOK" ["hello\n", "TOK oops\n"]
      ["hello\n"] "TOK oops\n").2 rfl).2.2.2
    exact h.trans rfl

end Wercker
